import Mathlib

/-!
Shallow embedding of the `message_queue` repository: a bounded, in-process
message queue with configurable FIFO/LIFO extraction and overflow/underflow
policies. The repository contains several revisions of the design:

* `src/messageQueue.hpp` (first part): `mq::Queue` with a pluggable
  `QueueManipulatorFIFO`/`QueueManipulatorLIFO` strategy object;
* `src/messageQueue.hpp` (second part): a `std::deque`-based `mq::Producer`
  paired with an abstract `mq::Receiver` holding full/empty-queue policies;
* `src/unnamed/part_001` (first part): the `mq::Queue` variant guarded by
  `sync::Synchronizer` over two `sem::Semaphore`s (`count_full`,
  `count_empty`);
* `src/unnamed/part_001` (second part): the older `mq::Listener` variant
  of the receiver;
* `src/semaphore.cpp` / `src/unnamed/part_003`: `sem::Semaphore` and
  `sync::Synchronizer`.

Buffers (`std::deque` / the type-erased `BaseQueue`) are modelled as
`List M` with `front = head`, `back = getLast`, `push_back l m = l ++ [m]`,
`pop_front = tail`, `pop_back = dropLast`. Machine sizes are `Nat`; the
`long int timeout` is `Int`; elapsed wall-clock durations are `ℚ`.
Blocking loops are modelled with explicit fuel over streams of observed
buffer states and elapsed times; an operation that would block forever on a
semaphore, or that runs into C++ undefined behaviour (element access on an
empty deque), is `none`.
-/

namespace mq

/-- `mq::Mode`: FIFO or LIFO extraction. -/
inductive Mode where
  | FIFO
  | LIFO
deriving DecidableEq, Repr

/-- `mq::FullQueuePolicy` of the deque-based `Producer`. -/
inductive FullQueuePolicy where
  | DO_NOTHING
  | SUB_FRONT
  | REMOVE_BACK
  | THROW
deriving DecidableEq, Repr

/-- `mq::EmptyQueuePolicy` of the policied `Receiver`. -/
inductive EmptyQueuePolicy where
  | DO_NOTHING
  | THROW
deriving DecidableEq, Repr

/-- The exception taxonomy of the library (`mq::*Exception`). -/
inductive MqError where
  | FullQueueException
  | EmptyQueueException
  | DetachedListenerException
  | WaitTimeoutException
deriving DecidableEq, Repr

end mq

namespace sem

/-- `sem::Semaphore` (src/semaphore.hpp): a bounded counting semaphore with
constant `max_slots` and current `slots`. -/
structure Semaphore where
  max_slots : Nat
  slots : Nat
deriving DecidableEq, Repr

/-- `sem::Semaphore::release` (src/semaphore.cpp lines 11-16):
`if (slots < max_slots) ++slots;` then `cv.notify_all()`.  Only the counter
update is modelled; the wakeup is a no-op on the counter state. -/
def Semaphore.release (s : Semaphore) : Semaphore :=
  { s with slots := if s.slots < s.max_slots then s.slots + 1 else s.slots }

/-- `sem::Semaphore::acquire` (src/semaphore.cpp lines 5-9): blocks until
`slots > 0`, then decrements.  In this sequential model an acquire that
would block is `none`. -/
def Semaphore.tryAcquire (s : Semaphore) : Option Semaphore :=
  if s.slots > 0 then some { s with slots := s.slots - 1 } else none

end sem

namespace mq

variable {M : Type}

/-- `BaseQueueManipulator::get` as dispatched to
`QueueManipulatorFIFO::get` (`messq.front()`) or
`QueueManipulatorLIFO::get` (`messq.back()`).  The C++ call is guarded by a
non-emptiness check at every call site; on an empty buffer it would be
undefined behaviour, here `none`. -/
def manipGet (mode : Mode) (l : List M) : Option M :=
  match mode with
  | Mode.FIFO => l.head?
  | Mode.LIFO => l.getLast?

/-- `BaseQueueManipulator::pop` as dispatched to `pop_front` (FIFO) or
`pop_back` (LIFO). -/
def manipPop (mode : Mode) (l : List M) : List M :=
  match mode with
  | Mode.FIFO => l.tail
  | Mode.LIFO => l.dropLast

/-- `BaseQueueManipulator::push`: both manipulators inherit the base
implementation, which calls `messq.push(msg)`, i.e. `push_back`. -/
def manipPush (m : M) (l : List M) : List M :=
  l ++ [m]

/-- The `mq::Queue` of src/messageQueue.hpp (first part): a type-erased
buffer, a manipulator (represented by its `Mode`), and `max_size`. -/
structure Queue (M : Type) where
  qmode : Mode
  msg_queue : List M
  max_size : Nat
deriving DecidableEq, Repr

/-- `mq::Queue`'s constructor: it initialises only `msg_queue`; the default
member initialisers give `queue_manipulator = new QueueManipulatorLIFO` and
`max_size = 1000` (src/messageQueue.hpp lines 158-164). -/
def Queue.construct (initial : List M) : Queue M :=
  { qmode := Mode.LIFO, msg_queue := initial, max_size := 1000 }

/-- `mq::Queue::full`: `msg_queue->size() == max_size` (exact equality). -/
def Queue.isFull (q : Queue M) : Bool :=
  q.msg_queue.length == q.max_size

/-- `mq::Queue::empty`. -/
def Queue.isEmpty (q : Queue M) : Bool :=
  q.msg_queue.isEmpty

/-- `mq::Queue::pop`: `queue_manipulator->pop(*msg_queue)`. -/
def Queue.popQ (q : Queue M) : Queue M :=
  { q with msg_queue := manipPop q.qmode q.msg_queue }

/-- `mq::Queue::push`: fails when full, otherwise pushes through the
manipulator. -/
def Queue.pushQ (q : Queue M) (msg : M) : Bool × Queue M :=
  if q.isFull then (false, q)
  else (true, { q with msg_queue := manipPush msg q.msg_queue })

/-- `mq::Queue::process` (src/messageQueue.hpp lines 127-137): under the
lock, return `false` on an empty buffer; otherwise peek the
strategy-defined read end, and pop only when the reader accepts. -/
def Queue.process (q : Queue M) (reader : M → Bool) : Bool × Queue M :=
  if q.msg_queue.isEmpty then (false, q)
  else
    match manipGet q.qmode q.msg_queue with
    | none => (false, q)
    | some msg => if reader msg then (true, q.popQ) else (false, q)

/-- `mq::Queue::set_mode`. -/
def Queue.set_mode (q : Queue M) (new_mode : Mode) : Queue M :=
  { q with qmode := new_mode }

/-- `mq::Queue::mode`. -/
def Queue.mode (q : Queue M) : Mode :=
  q.qmode

end mq

namespace mq

variable {M : Type}

/-- The semaphore-guarded `mq::Queue` of src/unnamed/part_001 (first part):
buffer, manipulator mode, constant `max_size`, and the two semaphores
`count_full` (occupied slots) and `count_empty` (free slots). -/
structure SyncQueue (M : Type) where
  qmode : Mode
  msg_queue : List M
  max_size : Nat
  count_full : sem.Semaphore
  count_empty : sem.Semaphore
deriving DecidableEq, Repr

/-- The `SyncQueue` constructor (src/unnamed/part_001 lines 111-120):
`count_full{max_size_, 0}`, `count_empty{max_size_, max_size_}`, and the
default LIFO manipulator. -/
def SyncQueue.construct (initial : List M) (max_size : Nat) : SyncQueue M :=
  { qmode := Mode.LIFO
    msg_queue := initial
    max_size := max_size
    count_full := { max_slots := max_size, slots := 0 }
    count_empty := { max_slots := max_size, slots := max_size } }

/-- `SyncQueue`'s private `full`. -/
def SyncQueue.isFull (q : SyncQueue M) : Bool :=
  q.msg_queue.length == q.max_size

/-- `SyncQueue`'s private `push`: fails when full, else `push_back` through
the manipulator. -/
def SyncQueue.pushQ (q : SyncQueue M) (msg : M) : Bool × SyncQueue M :=
  if q.isFull then (false, q)
  else (true, { q with msg_queue := manipPush msg q.msg_queue })

/-- `mq::Queue::process` of the Synchronizer variant (src/unnamed/part_001
lines 122-131).  `sync::Synchronizer s{count_full, count_empty, mutex}`
acquires `count_full` on entry (blocking, so `none` when it cannot); the
body peeks and pops only when the reader accepts; the `Synchronizer`
destructor (src/unnamed/part_003 lines 15-19) then unlocks the mutex and
calls `count_empty.release()` unconditionally, on every exit path. -/
def SyncQueue.process (q : SyncQueue M) (reader : M → Bool) :
    Option (Bool × SyncQueue M) :=
  match q.count_full.tryAcquire with
  | none => none
  | some cf =>
    let body : Bool × List M :=
      if q.msg_queue.isEmpty then (false, q.msg_queue)
      else
        match manipGet q.qmode q.msg_queue with
        | none => (false, q.msg_queue)
        | some msg =>
          if reader msg then (true, manipPop q.qmode q.msg_queue)
          else (false, q.msg_queue)
    some (body.fst,
      { q with
        count_full := cf
        msg_queue := body.snd
        count_empty := q.count_empty.release })

/-- `mq::Queue::load` of the Synchronizer variant (src/unnamed/part_001
lines 133-136): `sync::Synchronizer s{count_empty, count_full, mutex}`
around `push(msg)`; the destructor releases `count_full` unconditionally. -/
def SyncQueue.load (q : SyncQueue M) (msg : M) :
    Option (Bool × SyncQueue M) :=
  match q.count_empty.tryAcquire with
  | none => none
  | some ce =>
    let q1 := { q with count_empty := ce }
    let r := q1.pushQ msg
    some (r.fst, { r.snd with count_full := r.snd.count_full.release })

end mq

namespace mq

variable {M : Type}

/-- Outcome of `mq::Producer::send` (src/messageQueue.hpp, second part):
either the call completes with a resulting buffer, or it throws (buffer at
the throw point), or it runs into C++ undefined behaviour (element access
on an empty `std::deque`). -/
inductive SendOutcome (M : Type) where
  | ok (buf : List M)
  | exn (e : MqError) (buf : List M)
  | ub
deriving DecidableEq, Repr

/-- `mq::Producer::apply_full_queue_policy` (src/messageQueue.hpp lines
528-543): DO_NOTHING drops the message; SUB_FRONT writes
`message_queue.front() = message`; REMOVE_BACK does `pop_back` then
`push_back(message)`; THROW raises `FullQueueException`.  `front()` /
`pop_back()` on an empty deque are undefined behaviour. -/
def applyFullQueuePolicy (policy : FullQueuePolicy) (message : M)
    (buf : List M) : SendOutcome M :=
  match policy with
  | FullQueuePolicy.DO_NOTHING => SendOutcome.ok buf
  | FullQueuePolicy.SUB_FRONT =>
    match buf with
    | [] => SendOutcome.ub
    | _ :: rest => SendOutcome.ok (message :: rest)
  | FullQueuePolicy.REMOVE_BACK =>
    match buf with
    | [] => SendOutcome.ub
    | _ => SendOutcome.ok (buf.dropLast ++ [message])
  | FullQueuePolicy.THROW => SendOutcome.exn MqError.FullQueueException buf

/-- The deque-based `mq::Producer` (src/messageQueue.hpp, second part):
`max_queue_size` defaults to 0, the buffer starts empty, and the full-queue
policy defaults to DO_NOTHING. -/
structure Producer (M : Type) where
  max_queue_size : Nat
  message_queue : List M
  full_queue_policy : FullQueuePolicy
deriving DecidableEq, Repr

/-- A default-constructed `Producer` (`Producer() = default` with the
member initialisers `max_queue_size{0}`, empty deque,
`full_queue_policy{FullQueuePolicy::DO_NOTHING}`). -/
def Producer.construct : Producer M :=
  { max_queue_size := 0
    message_queue := []
    full_queue_policy := FullQueuePolicy.DO_NOTHING }

/-- `mq::Producer::set_max_len` (src/messageQueue.hpp lines 472-477): just
stores the new bound; the buffer is not truncated. -/
def Producer.set_max_len (p : Producer M) (n : Nat) : Producer M :=
  { p with max_queue_size := n }

/-- `mq::Producer::set_full_queue_policy`. -/
def Producer.set_full_queue_policy (p : Producer M) (policy : FullQueuePolicy) :
    Producer M :=
  { p with full_queue_policy := policy }

/-- `mq::Producer::queue_size`: the current number of stored messages. -/
def Producer.queue_size (p : Producer M) : Nat :=
  p.message_queue.length

/-- `mq::Producer::send` (src/messageQueue.hpp lines 492-501): under the
lock, if `message_queue.size() >= max_queue_size` apply the full-queue
policy, else `push_back(message)`.  Returns the resulting buffer. -/
def Producer.sendBuf (p : Producer M) (message : M) : SendOutcome M :=
  if p.message_queue.length ≥ p.max_queue_size then
    applyFullQueuePolicy p.full_queue_policy message p.message_queue
  else
    SendOutcome.ok (p.message_queue ++ [message])

/-- `Producer.send` as a state transformer: a completed or throwing send
leaves the producer with the buffer the C++ object holds afterwards;
undefined behaviour is `none`. -/
def Producer.send (p : Producer M) (message : M) : Option (Producer M) :=
  match p.sendBuf message with
  | SendOutcome.ok buf => some { p with message_queue := buf }
  | SendOutcome.exn _ buf => some { p with message_queue := buf }
  | SendOutcome.ub => none

/-- The policied `mq::Receiver` of src/messageQueue.hpp (second part): the
local settings of the handle.  The buffer and mutex pointers alias the
attached `Producer`'s state, so the buffer is passed explicitly to the
operations below. -/
structure Receiver (M : Type) where
  queue_mode : Mode
  is_blocking : Bool
  is_detached : Bool
  timeout : Int
  wait_time : ℚ
  empty_queue_policy : EmptyQueuePolicy

/-- A freshly constructed `Receiver` (member initialisers, lines 369-373):
FIFO mode, non-blocking, detached, `timeout` 120, `wait_time` 1,
DO_NOTHING empty-queue policy. -/
def Receiver.construct : Receiver M :=
  { queue_mode := Mode.FIFO
    is_blocking := false
    is_detached := true
    timeout := 120
    wait_time := 1
    empty_queue_policy := EmptyQueuePolicy.DO_NOTHING }

/-- `mq::Producer::attach` flips the receiver's `is_detached` to false
(and wires the shared pointers, which are implicit here). -/
def Receiver.attach (r : Receiver M) : Receiver M :=
  { r with is_detached := false }

/-- `mq::Receiver::detach`. -/
def Receiver.detach (r : Receiver M) : Receiver M :=
  { r with is_detached := true }

/-- `mq::Receiver::extract_message` (src/messageQueue.hpp lines 420-426):
`back()` in LIFO mode, `front()` in FIFO mode; guarded by non-emptiness at
every call site, so `none` stands for the undefined empty-access. -/
def Receiver.extract_message (r : Receiver M) (buf : List M) : Option M :=
  match r.queue_mode with
  | Mode.LIFO => buf.getLast?
  | Mode.FIFO => buf.head?

/-- `mq::Receiver::pop_message` (src/messageQueue.hpp lines 429-435):
`pop_back` in LIFO mode, `pop_front` in FIFO mode. -/
def Receiver.pop_message (r : Receiver M) (buf : List M) : List M :=
  match r.queue_mode with
  | Mode.LIFO => buf.dropLast
  | Mode.FIFO => buf.tail

/-- Result of one `listen`-family call: the `bool` return value, the value
left in the out-parameter `message` (when one was assigned), and the buffer
afterwards. -/
structure ListenResult (M : Type) where
  retrieved : Bool
  message : Option M
  buf : List M
deriving DecidableEq, Repr

/-- `mq::Receiver::get_message_non_blocking` (src/messageQueue.hpp lines
378-388): under the lock, on a non-empty buffer it assigns
`message = extract_message()`, pops only when `consumed(message)`, and
returns `true` in both cases; on an empty buffer it returns `false` under
DO_NOTHING and throws `EmptyQueueException` under THROW. -/
def Receiver.get_message_non_blocking (r : Receiver M) (consumed : M → Bool)
    (buf : List M) : Except MqError (ListenResult M) :=
  if ¬ buf.isEmpty then
    match r.extract_message buf with
    | none => Except.ok { retrieved := true, message := none, buf := buf }
    | some message =>
      Except.ok
        { retrieved := true
          message := some message
          buf := if consumed message then r.pop_message buf else buf }
  else if r.empty_queue_policy = EmptyQueuePolicy.DO_NOTHING then
    Except.ok { retrieved := false, message := none, buf := buf }
  else
    Except.error MqError.EmptyQueueException

end mq

namespace mq

variable {M : Type}

/-- Outcome of one iteration of a blocking poll loop: a message was
retrieved, the timeout exception was thrown, or the thread sleeps
`wait_time` and retries. -/
inductive PollStep (M : Type) where
  | done (res : ListenResult M)
  | timeoutThrow
  | retry
deriving DecidableEq, Repr

/-- One iteration of `mq::Receiver::get_message_blocking`
(src/messageQueue.hpp lines 393-417), as a function of the buffer observed
under the lock and the elapsed time observed after unlocking: on a
non-empty buffer extract, conditionally pop, and return `true`; otherwise
throw `WaitTimeoutException` only when `timeout > 0` and the elapsed time
has reached `timeout`; else sleep and retry. -/
def Receiver.blockingStep (r : Receiver M) (consumed : M → Bool)
    (buf : List M) (elapsed : ℚ) : PollStep M :=
  if ¬ buf.isEmpty then
    match r.extract_message buf with
    | none => PollStep.done { retrieved := true, message := none, buf := buf }
    | some message =>
      PollStep.done
        { retrieved := true
          message := some message
          buf := if consumed message then r.pop_message buf else buf }
  else if r.timeout > 0 ∧ (r.timeout : ℚ) ≤ elapsed then
    PollStep.timeoutThrow
  else
    PollStep.retry

/-- The `while (true)` poll loop of `mq::Receiver::get_message_blocking`,
run with explicit fuel over streams of observed buffer states and elapsed
times (`bufAt k`, `elapsedAt k` are what iteration `k` observes).  `none`
means the fuel ran out with the loop still polling. -/
def Receiver.blockingLoop (r : Receiver M) (consumed : M → Bool)
    (bufAt : Nat → List M) (elapsedAt : Nat → ℚ) :
    Nat → Nat → Option (Except MqError (ListenResult M))
  | 0, _ => none
  | fuel + 1, k =>
    match r.blockingStep consumed (bufAt k) (elapsedAt k) with
    | PollStep.done res => some (Except.ok res)
    | PollStep.timeoutThrow =>
      some (Except.error MqError.WaitTimeoutException)
    | PollStep.retry => r.blockingLoop consumed bufAt elapsedAt fuel (k + 1)

/-- `mq::Receiver::listen` (src/messageQueue.hpp lines 308-318): a detached
receiver returns `false` under the DO_NOTHING empty-queue policy and throws
`DetachedListenerException` under THROW, without touching any queue;
otherwise the call forwards to the blocking or non-blocking getter (the
`try`/`catch` block rethrows unchanged).  `none` means a blocking call that
is still polling when the fuel runs out. -/
def Receiver.listen (r : Receiver M) (consumed : M → Bool)
    (bufAt : Nat → List M) (elapsedAt : Nat → ℚ) (fuel : Nat) :
    Option (Except MqError (ListenResult M)) :=
  if r.is_detached then
    if r.empty_queue_policy = EmptyQueuePolicy.DO_NOTHING then
      some (Except.ok { retrieved := false, message := none, buf := bufAt 0 })
    else
      some (Except.error MqError.DetachedListenerException)
  else if r.is_blocking then
    r.blockingLoop consumed bufAt elapsedAt fuel 0
  else
    some (r.get_message_non_blocking consumed (bufAt 0))

/-- One iteration of the older `mq::Listener::get_message_blocking`
(src/unnamed/part_001 lines 347-371).  Identical to the `Receiver` loop
except that the timeout check is `elapsed >= timeout` with no `timeout > 0`
guard.  The Listener has no empty-queue policy; `queue_mode` and the
`consumed` test are passed in directly. -/
def listenerBlockingStep (queue_mode : Mode) (timeout : Int)
    (consumed : M → Bool) (buf : List M) (elapsed : ℚ) : PollStep M :=
  if ¬ buf.isEmpty then
    match manipGet queue_mode buf with
    | none => PollStep.done { retrieved := true, message := none, buf := buf }
    | some message =>
      PollStep.done
        { retrieved := true
          message := some message
          buf := if consumed message then manipPop queue_mode buf else buf }
  else if (timeout : ℚ) ≤ elapsed then
    PollStep.timeoutThrow
  else
    PollStep.retry

/-- The poll loop of `mq::Listener::get_message_blocking`, with fuel, over
streams of observed buffers and elapsed times. -/
def listenerBlockingLoop (queue_mode : Mode) (timeout : Int)
    (consumed : M → Bool) (bufAt : Nat → List M) (elapsedAt : Nat → ℚ) :
    Nat → Nat → Option (Except MqError (ListenResult M))
  | 0, _ => none
  | fuel + 1, k =>
    match listenerBlockingStep queue_mode timeout consumed
        (bufAt k) (elapsedAt k) with
    | PollStep.done res => some (Except.ok res)
    | PollStep.timeoutThrow =>
      some (Except.error MqError.WaitTimeoutException)
    | PollStep.retry =>
      listenerBlockingLoop queue_mode timeout consumed bufAt elapsedAt
        fuel (k + 1)

end mq

namespace mq

variable {M : Type}

/-- An operation of the deque-based producer/receiver API, for stating
whole-sequence invariants.  `dequeue mode consumed` is the buffer effect of
a receiver's dequeue attempt in the given mode (extract at the mode's read
end, pop only when `consumed` accepts); `set_max_len`, `set_policy` and
`send` are the producer operations. -/
inductive Op (M : Type) where
  | send (message : M)
  | dequeue (mode : Mode) (consumed : M → Bool)
  | set_max_len (n : Nat)
  | set_policy (policy : FullQueuePolicy)

/-- The buffer effect of a receiver dequeue attempt (the shared core of
`get_message_non_blocking` / `get_message_blocking`): on an empty buffer
nothing changes; otherwise the message at the mode's read end is removed
exactly when `consumed` accepts it. -/
def dequeueEffect (mode : Mode) (consumed : M → Bool) (buf : List M) :
    List M :=
  match manipGet mode buf with
  | none => buf
  | some message => if consumed message then manipPop mode buf else buf

/-- One step of the producer/receiver state machine.  A send that throws
(`THROW` policy) leaves the buffer as the code does at the throw point;
undefined behaviour is `none`. -/
def stepOp (p : Producer M) (op : Op M) : Option (Producer M) :=
  match op with
  | Op.send message => p.send message
  | Op.dequeue mode consumed =>
    some { p with message_queue := dequeueEffect mode consumed p.message_queue }
  | Op.set_max_len n => some (p.set_max_len n)
  | Op.set_policy policy => some (p.set_full_queue_policy policy)

/-- Run a sequence of operations from a starting producer state. -/
def runOps (p : Producer M) : List (Op M) → Option (Producer M)
  | [] => some p
  | op :: rest =>
    match stepOp p op with
    | none => none
    | some p1 => runOps p1 rest

/-- `op` is not a resize (`set_max_len`) operation. -/
def Op.isNotResize : Op M → Prop
  | Op.set_max_len _ => False
  | _ => True

/-- Repeatedly extract-and-remove at the mode's read end, with fuel:
the sequence of messages a receiver dequeues (no predicate filtering,
`consumed` always true) from a buffer that receives no further sends. -/
def drain (mode : Mode) : Nat → List M → List M
  | 0, _ => []
  | fuel + 1, buf =>
    match manipGet mode buf with
    | none => []
    | some message => message :: drain mode fuel (manipPop mode buf)

end mq

section Claims

open mq

/-- C7: for every semaphore state with `slots ≤ max_slots`, `release()`
increments `slots` by exactly one when `slots < max_slots`, leaves it
unchanged when `slots = max_slots` (the increment is clamped), and
preserves `slots ≤ max_slots`.  The subsequent `cv.notify_all()` does not
change the counter.  (src/semaphore.cpp lines 11-16.) -/
theorem semaphore_release_clamped (s : sem.Semaphore)
    (h : s.slots ≤ s.max_slots) :
    (s.slots < s.max_slots → s.release.slots = s.slots + 1) ∧
    (s.slots = s.max_slots → s.release.slots = s.slots) ∧
    s.release.slots ≤ s.max_slots := by
  unfold sem.Semaphore.release
  refine ⟨fun hlt => ?_, fun heq => ?_, ?_⟩
  · simp [hlt]
  · simp [heq]
  · dsimp only
    split <;> omega

/-- Witness for C7 at the concrete semaphore `⟨3, 2⟩`. -/
theorem semaphore_release_clamped_witness :
    ((⟨3, 2⟩ : sem.Semaphore).slots < (⟨3, 2⟩ : sem.Semaphore).max_slots →
      (⟨3, 2⟩ : sem.Semaphore).release.slots = 2 + 1) ∧
    ((⟨3, 2⟩ : sem.Semaphore).slots = (⟨3, 2⟩ : sem.Semaphore).max_slots →
      (⟨3, 2⟩ : sem.Semaphore).release.slots = 2) ∧
    (⟨3, 2⟩ : sem.Semaphore).release.slots ≤ 3 :=
  semaphore_release_clamped ⟨3, 2⟩ (by decide)

/-- C1: the code releases the free-slot semaphore `count_empty` even when
nothing was removed.  On a capacity-2 `SyncQueue`, `load 5` yields the
state with buffer `[5]`, `count_full.slots = 1`, `count_empty.slots = 1`;
a `process` whose reader rejects the candidate removes nothing (the buffer
is still `[5]`) yet the `~Synchronizer` exit path bumps `count_empty` from
1 to 2, so the free-slot count (2) no longer complements the occupancy (1)
in a 2-slot queue.  This contradicts the claimed release-iff-removed
invariant. -/
theorem syncqueue_reject_still_releases_count_empty :
    (SyncQueue.construct ([] : List ℕ) 2).load 5 =
      some (true, ⟨Mode.LIFO, [5], 2, ⟨2, 1⟩, ⟨2, 1⟩⟩) ∧
    (⟨Mode.LIFO, [5], 2, ⟨2, 1⟩, ⟨2, 1⟩⟩ : SyncQueue ℕ).process
        (fun _ => false) =
      some (false, ⟨Mode.LIFO, [5], 2, ⟨2, 0⟩, ⟨2, 2⟩⟩) ∧
    ([5] : List ℕ).length + 2 ≠ 2 := by
  refine ⟨?_, ?_, by decide⟩ <;> rfl

/-- C10: a newly constructed `Queue` is in LIFO mode: `mode()` returns
`Mode::LIFO` (the default member initialiser installs
`QueueManipulatorLIFO`), and the first `process` reads the back (most
recently pushed) element and, when the reader accepts, removes it from the
back.  (src/messageQueue.hpp lines 158-161.) -/
theorem queue_default_mode_lifo {M : Type} (buf : List M) (reader : M → Bool)
    (h : buf ≠ []) :
    (Queue.construct buf).mode = Mode.LIFO ∧
    buf.getLast? = some (buf.getLast h) ∧
    (Queue.construct buf).process reader =
      (reader (buf.getLast h),
        if reader (buf.getLast h) then (Queue.construct buf).popQ
        else Queue.construct buf) ∧
    (Queue.construct buf).popQ.msg_queue = buf.dropLast := by
  refine ⟨rfl, List.getLast?_eq_getLast_of_ne_nil h, ?_, rfl⟩
  have hne : buf.isEmpty = false := by
    cases buf with
    | nil => exact absurd rfl h
    | cons a t => rfl
  unfold Queue.process Queue.construct manipGet
  rw [hne]
  simp only [Bool.false_eq_true, if_false]
  rw [List.getLast?_eq_getLast_of_ne_nil h]
  by_cases hr : reader (buf.getLast h)
  · simp [hr, Queue.construct]
  · simp [hr, Queue.construct]

/-- Witness for C10 at `buf = [1, 2]`, `reader = fun _ => true`. -/
theorem queue_default_mode_lifo_witness :
    (Queue.construct [1, 2]).mode = Mode.LIFO ∧
    ([1, 2] : List ℕ).getLast? = some (([1, 2] : List ℕ).getLast (by decide)) ∧
    (Queue.construct [1, 2]).process (fun _ => true) =
      ((fun _ => true) (([1, 2] : List ℕ).getLast (by decide)),
        if (fun _ => true) (([1, 2] : List ℕ).getLast (by decide)) then
          (Queue.construct [1, 2]).popQ
        else Queue.construct [1, 2]) ∧
    (Queue.construct [1, 2]).popQ.msg_queue = ([1, 2] : List ℕ).dropLast :=
  queue_default_mode_lifo [1, 2] (fun _ => true) (by decide)

/-- C9: a default-constructed `Producer` has `max_queue_size = 0`, so
`message_queue.size() >= max_queue_size` holds on every `send` and the
full-queue branch is always taken; under the default DO_NOTHING policy no
message is ever inserted, and `queue_size()` stays 0 for every sequence of
sends — despite `set_max_len`'s documentation saying zero disables any
constraint.  (src/messageQueue.hpp lines 492-501, 472-477, 522.) -/
theorem default_producer_send_never_inserts {M : Type} (msgs : List M) :
    runOps Producer.construct (msgs.map Op.send) = some Producer.construct ∧
    (Producer.construct : Producer M).queue_size = 0 ∧
    (Producer.construct : Producer M).max_queue_size ≤
      (Producer.construct : Producer M).queue_size := by
  refine ⟨?_, rfl, Nat.le_refl 0⟩
  induction msgs with
  | nil => rfl
  | cons m rest ih =>
    have hsend : (Producer.construct : Producer M).send m =
        some Producer.construct := rfl
    simp only [List.map, runOps, stepOp, hsend]
    exact ih

end Claims

section Claims2

open mq

/-- C5: for every detached receiver, `listen` returns `false` ("no
message") under the DO_NOTHING (RETURN_EMPTY) empty-queue policy and
throws `DetachedListenerException` under THROW (FAIL); since the policy is
one of those two, no other outcome is possible, whatever the queue
contents, predicate, timing or fuel.  (src/messageQueue.hpp lines
308-318.) -/
theorem detached_listen_outcomes {M : Type} (r : Receiver M)
    (consumed : M → Bool) (bufAt : Nat → List M) (elapsedAt : Nat → ℚ)
    (fuel : Nat) (h : r.is_detached = true) :
    (r.empty_queue_policy = EmptyQueuePolicy.DO_NOTHING ∧
      r.listen consumed bufAt elapsedAt fuel =
        some (Except.ok
          { retrieved := false, message := none, buf := bufAt 0 })) ∨
    (r.empty_queue_policy = EmptyQueuePolicy.THROW ∧
      r.listen consumed bufAt elapsedAt fuel =
        some (Except.error MqError.DetachedListenerException)) := by
  unfold Receiver.listen
  cases hp : r.empty_queue_policy with
  | DO_NOTHING => exact Or.inl ⟨rfl, by simp [h, hp]⟩
  | THROW => exact Or.inr ⟨rfl, by simp [h, hp]⟩

/-- Witness for C5 at the freshly constructed (hence detached) receiver
with its default DO_NOTHING policy, on an empty stream. -/
theorem detached_listen_outcomes_witness :
    ((Receiver.construct : Receiver ℕ).empty_queue_policy =
        EmptyQueuePolicy.DO_NOTHING ∧
      (Receiver.construct : Receiver ℕ).listen (fun _ => true)
          (fun _ => []) (fun _ => 0) 3 =
        some (Except.ok
          { retrieved := false, message := none, buf := [] })) ∨
    ((Receiver.construct : Receiver ℕ).empty_queue_policy =
        EmptyQueuePolicy.THROW ∧
      (Receiver.construct : Receiver ℕ).listen (fun _ => true)
          (fun _ => []) (fun _ => 0) 3 =
        some (Except.error MqError.DetachedListenerException)) :=
  detached_listen_outcomes Receiver.construct (fun _ => true)
    (fun _ => []) (fun _ => 0) 3 rfl

/-- C3 counterexample: on the non-empty buffer `[7]` with an always-false
predicate, `Receiver::get_message_non_blocking` leaves the buffer
untouched but returns `true`, i.e. it reports "a message has been
retrieved" (it assigned the peeked message to the out-parameter without
removing it) — not the "no message retrieved" the claim states. -/
theorem receiver_reject_reports_retrieved :
    (Receiver.construct : Receiver ℕ).get_message_non_blocking
        (fun _ => false) [7] =
      Except.ok { retrieved := true, message := some 7, buf := [7] } ∧
    ({ retrieved := true, message := some 7, buf := [7] } :
        ListenResult ℕ).retrieved ≠ false := by
  exact ⟨rfl, by decide⟩

/-- On a non-empty list the manipulator peek yields a message. -/
theorem manipGet_isSome {M : Type} (mode : Mode) (l : List M) (h : l ≠ []) :
    ∃ m, manipGet mode l = some m := by
  cases mode with
  | FIFO =>
    cases l with
    | nil => exact absurd rfl h
    | cons a t => exact ⟨a, rfl⟩
  | LIFO =>
    refine ⟨l.getLast h, ?_⟩
    show l.getLast? = _
    exact List.getLast?_eq_getLast_of_ne_nil h

/-- On a non-empty buffer `Receiver::extract_message` yields a message. -/
theorem extract_message_isSome {M : Type} (r : Receiver M) (buf : List M)
    (h : buf ≠ []) : ∃ m, r.extract_message buf = some m := by
  unfold Receiver.extract_message
  cases r.queue_mode with
  | LIFO =>
    refine ⟨buf.getLast h, ?_⟩
    exact List.getLast?_eq_getLast_of_ne_nil h
  | FIFO =>
    cases buf with
    | nil => exact absurd rfl h
    | cons a t => exact ⟨a, rfl⟩

/-- C3 amended: a predicate-false dequeue attempt leaves size and contents
exactly as they were on both paths; `Queue::process` reports no message
(`false`), while `Receiver::get_message_non_blocking` reports `true` (the
peeked message was assigned to the out-parameter) without removing
anything. -/
theorem reject_leaves_state_unchanged {M : Type} (q : Queue M)
    (r : Receiver M) (buf : List M) (consumed : M → Bool)
    (hq : q.msg_queue ≠ []) (hbuf : buf ≠ [])
    (hc : ∀ m, consumed m = false) :
    q.process consumed = (false, q) ∧
    ∃ m, r.extract_message buf = some m ∧
      r.get_message_non_blocking consumed buf =
        Except.ok { retrieved := true, message := some m, buf := buf } := by
  constructor
  · have hne : q.msg_queue.isEmpty = false := by
      cases hmq : q.msg_queue with
      | nil => exact absurd hmq hq
      | cons a t => rfl
    obtain ⟨m, hm⟩ := manipGet_isSome q.qmode q.msg_queue hq
    unfold Queue.process
    rw [hne, hm]
    simp [hc m]
  · obtain ⟨m, hm⟩ := extract_message_isSome r buf hbuf
    refine ⟨m, hm, ?_⟩
    have hne : buf.isEmpty = false := by
      cases hmq : buf with
      | nil => exact absurd hmq hbuf
      | cons a t => rfl
    unfold Receiver.get_message_non_blocking
    rw [hne, hm]
    simp [hc m]

/-- Witness for C3's amended statement at `q = Queue.construct [1]`,
`buf = [2]`, always-false predicate. -/
theorem reject_leaves_state_unchanged_witness :
    (Queue.construct [1]).process (fun _ => false) =
      (false, Queue.construct ([1] : List ℕ)) ∧
    ∃ m, (Receiver.construct : Receiver ℕ).extract_message [2] = some m ∧
      (Receiver.construct : Receiver ℕ).get_message_non_blocking
          (fun _ => false) [2] =
        Except.ok { retrieved := true, message := some m, buf := [2] } :=
  reject_leaves_state_unchanged (Queue.construct [1]) Receiver.construct
    [2] (fun _ => false) (by decide) (by decide) (fun _ => rfl)

/-- C4 counterexample: with an attached receiver in LIFO mode, the
extraction end is the back, yet `SUB_FRONT` on the full 2-slot producer
holding `[0, 1]` replaces the front: `send 2` yields `[2, 1]`, whose
extraction-end (back) element is still the old `1`, and the buffer differs
from the `[0, 2]` that a replacement at the extraction end would give. -/
theorem sub_front_ignores_extraction_end :
    (⟨2, [0, 1], FullQueuePolicy.SUB_FRONT⟩ : Producer ℕ).sendBuf 2 =
      SendOutcome.ok [2, 1] ∧
    manipGet Mode.LIFO ([2, 1] : List ℕ) = some 1 ∧
    (1 : ℕ) ≠ 2 ∧
    ([2, 1] : List ℕ) ≠ [0, 2] := by
  refine ⟨rfl, rfl, by decide, by decide⟩

/-- C4 amended: on a full producer under SUB_FRONT, `send` always replaces
the front element with the incoming message, regardless of any receiver's
FIFO/LIFO mode, leaving the size unchanged; in FIFO mode the front is the
extraction end, so a full FIFO queue `[A, B]` becomes `[C, B]` with the
new message at the read end. -/
theorem sub_front_replaces_front {M : Type} (p : Producer M) (c h : M)
    (t : List M) (hpol : p.full_queue_policy = FullQueuePolicy.SUB_FRONT)
    (hbuf : p.message_queue = h :: t)
    (hfull : p.max_queue_size ≤ p.message_queue.length) :
    p.sendBuf c = SendOutcome.ok (c :: t) ∧
    (c :: t).length = p.message_queue.length ∧
    manipGet Mode.FIFO (c :: t) = some c := by
  refine ⟨?_, by rw [hbuf]; rfl, rfl⟩
  unfold Producer.sendBuf
  rw [if_pos hfull, hpol, hbuf]
  rfl

/-- Witness for C4's amended statement: the spec's own example
`[A, B] = [10, 11]` full at capacity 2, incoming `C = 12`, yielding
`[12, 11]`. -/
theorem sub_front_replaces_front_witness :
    (⟨2, [10, 11], FullQueuePolicy.SUB_FRONT⟩ : Producer ℕ).sendBuf 12 =
      SendOutcome.ok (12 :: [11]) ∧
    ((12 : ℕ) :: [11]).length =
      (⟨2, [10, 11], FullQueuePolicy.SUB_FRONT⟩ :
        Producer ℕ).message_queue.length ∧
    manipGet Mode.FIFO ((12 : ℕ) :: [11]) = some 12 :=
  sub_front_replaces_front
    (⟨2, [10, 11], FullQueuePolicy.SUB_FRONT⟩ : Producer ℕ) 12 10 [11]
    rfl rfl (by decide)

end Claims2

section Claims3

open mq

/-- A `send` that completes normally either keeps the buffer length (full
branch: DO_NOTHING, SUB_FRONT, REMOVE_BACK) or grows it by one from a
strictly non-full buffer. -/
theorem sendBuf_ok_length {M : Type} (p : Producer M) (m : M) (buf : List M)
    (h : p.sendBuf m = SendOutcome.ok buf) :
    buf.length ≤ p.message_queue.length ∨
      (p.message_queue.length < p.max_queue_size ∧
        buf.length = p.message_queue.length + 1) := by
  unfold Producer.sendBuf at h
  by_cases hfull : p.message_queue.length ≥ p.max_queue_size
  · rw [if_pos hfull] at h
    left
    unfold applyFullQueuePolicy at h
    cases hpol : p.full_queue_policy <;> rw [hpol] at h
    · simp only [SendOutcome.ok.injEq] at h
      rw [← h]
    · cases hmq : p.message_queue with
      | nil => rw [hmq] at h; exact absurd h (by simp)
      | cons a t =>
        rw [hmq] at h
        simp only [SendOutcome.ok.injEq] at h
        rw [← h]
        simp
    · cases hmq : p.message_queue with
      | nil => rw [hmq] at h; exact absurd h (by simp)
      | cons a t =>
        rw [hmq] at h
        simp only [SendOutcome.ok.injEq] at h
        rw [← h]
        simp [List.length_dropLast]
    · exact absurd h (by simp)
  · rw [if_neg hfull] at h
    simp only [SendOutcome.ok.injEq] at h
    right
    constructor
    · omega
    · rw [← h]; simp

/-- A `send` that throws (`THROW` policy) leaves the buffer unmodified. -/
theorem sendBuf_exn_buf {M : Type} (p : Producer M) (m : M) (e : MqError)
    (buf : List M) (h : p.sendBuf m = SendOutcome.exn e buf) :
    buf = p.message_queue := by
  unfold Producer.sendBuf at h
  by_cases hfull : p.message_queue.length ≥ p.max_queue_size
  · rw [if_pos hfull] at h
    unfold applyFullQueuePolicy at h
    cases hpol : p.full_queue_policy <;> rw [hpol] at h
    · exact absurd h (by simp)
    · cases hmq : p.message_queue with
      | nil => rw [hmq] at h; exact absurd h (by simp)
      | cons a t => rw [hmq] at h; exact absurd h (by simp)
    · cases hmq : p.message_queue with
      | nil => rw [hmq] at h; exact absurd h (by simp)
      | cons a t => rw [hmq] at h; exact absurd h (by simp)
    · simp only [SendOutcome.exn.injEq] at h
      exact h.2.symm
  · rw [if_neg hfull] at h
    exact absurd h (by simp)

/-- A receiver dequeue attempt never grows the buffer. -/
theorem dequeueEffect_length_le {M : Type} (mode : Mode)
    (consumed : M → Bool) (buf : List M) :
    (dequeueEffect mode consumed buf).length ≤ buf.length := by
  unfold dequeueEffect
  cases hg : manipGet mode buf with
  | none => exact Nat.le_refl _
  | some m =>
    by_cases hc : consumed m
    · simp only [hc, if_true]
      unfold manipPop
      cases mode with
      | FIFO => simp [List.length_tail]
      | LIFO => simp [List.length_dropLast]
    · simp [hc]

/-- Every non-resize operation preserves `queue_size ≤ max_queue_size`. -/
theorem stepOp_preserves_bound {M : Type} (p p1 : Producer M) (op : Op M)
    (h : p.queue_size ≤ p.max_queue_size) (hop : op.isNotResize)
    (hstep : stepOp p op = some p1) :
    p1.queue_size ≤ p1.max_queue_size := by
  cases op with
  | send m =>
    simp only [stepOp, Producer.send] at hstep
    cases hs : p.sendBuf m with
    | ok buf =>
      rw [hs] at hstep
      simp only [Option.some.injEq] at hstep
      rw [← hstep]
      unfold Producer.queue_size at *
      rcases sendBuf_ok_length p m buf hs with h1 | ⟨h1, h2⟩ <;>
        simp <;> omega
    | exn e buf =>
      rw [hs] at hstep
      simp only [Option.some.injEq] at hstep
      rw [← hstep]
      unfold Producer.queue_size at *
      have hb : buf = p.message_queue := sendBuf_exn_buf p m e buf hs
      simp [hb]
      exact h
    | ub =>
      rw [hs] at hstep
      exact absurd hstep (by simp)
  | dequeue mode consumed =>
    simp only [stepOp, Option.some.injEq] at hstep
    rw [← hstep]
    unfold Producer.queue_size at *
    calc (dequeueEffect mode consumed p.message_queue).length
        ≤ p.message_queue.length := dequeueEffect_length_le mode consumed _
      _ ≤ p.max_queue_size := h
  | set_max_len n => exact False.elim hop
  | set_policy policy =>
    simp only [stepOp, Producer.set_full_queue_policy,
      Option.some.injEq] at hstep
    rw [← hstep]
    exact h

/-- C2 amended: for every starting state satisfying the bound and every
sequence of send/dequeue/set-policy operations containing no
`set_max_len`/`set_size` resize, the bound `queue_size ≤ max_queue_size`
holds after the run; sends on a full queue keep the size constant under
every policy, sends on a non-full queue stay within the bound, dequeues
only shrink.  (The unrestricted claim fails: see the counterexample.) -/
theorem runOps_preserves_bound {M : Type} (p p1 : Producer M)
    (ops : List (Op M)) (h : p.queue_size ≤ p.max_queue_size)
    (hops : ∀ op ∈ ops, op.isNotResize)
    (hrun : runOps p ops = some p1) :
    p1.queue_size ≤ p1.max_queue_size := by
  induction ops generalizing p with
  | nil =>
    unfold runOps at hrun
    simp only [Option.some.injEq] at hrun
    rw [← hrun]
    exact h
  | cons op rest ih =>
    unfold runOps at hrun
    cases hs : stepOp p op with
    | none => rw [hs] at hrun; exact absurd hrun (by simp)
    | some p2 =>
      rw [hs] at hrun
      exact ih p2
        (stepOp_preserves_bound p p2 op h (hops op (by simp)) hs)
        (fun o ho => hops o (by simp [ho])) hrun

/-- Witness for C2's amended statement: one send from the default producer
state. -/
theorem runOps_preserves_bound_witness :
    (Producer.construct : Producer ℕ).queue_size ≤
      (Producer.construct : Producer ℕ).max_queue_size :=
  runOps_preserves_bound Producer.construct Producer.construct
    [Op.send 3] (by decide)
    (by
      intro op hop
      rcases List.mem_singleton.mp hop with rfl
      trivial)
    rfl

/-- C2 counterexample: the operation sequence `set_max_len 2; send 0;
send 1; set_max_len 1` ends with 2 stored messages and a current maximum
of 1, so `len(Queue) ≤ N` fails right after the final operation —
`set_max_len` stores the new bound without truncating the buffer. -/
theorem queue_len_bound_fails_after_set_max_len :
    runOps (Producer.construct : Producer ℕ)
      [Op.set_max_len 2, Op.send 0, Op.send 1, Op.set_max_len 1] =
      some ⟨1, [0, 1], FullQueuePolicy.DO_NOTHING⟩ ∧
    ¬ ((⟨1, [0, 1], FullQueuePolicy.DO_NOTHING⟩ : Producer ℕ).queue_size ≤
        (⟨1, [0, 1], FullQueuePolicy.DO_NOTHING⟩ :
          Producer ℕ).max_queue_size) := by
  exact ⟨rfl, by decide⟩

end Claims3

section Claims4

open mq

/-- Draining in FIFO mode (peek `front()`, `pop_front()`) with enough fuel
returns the buffer's elements in buffer order. -/
theorem drain_fifo_eq {M : Type} (n : Nat) (l : List M) (h : l.length ≤ n) :
    drain Mode.FIFO n l = l := by
  induction n generalizing l with
  | zero =>
    cases l with
    | nil => rfl
    | cons a t => simp at h
  | succ k ih =>
    cases l with
    | nil => rfl
    | cons a t =>
      have ht : t.length ≤ k := by
        simp only [List.length_cons] at h
        omega
      have hstep : drain Mode.FIFO (k + 1) (a :: t) =
          a :: drain Mode.FIFO k t := rfl
      rw [hstep, ih t ht]

/-- In `buf ++ [m1, m2]` the element dequeued at step `buf.length` is `m1`
and the one at step `buf.length + 1` is `m2`. -/
theorem getElem?_append_pair {M : Type} (buf : List M) (m1 m2 : M) :
    (buf ++ [m1, m2])[buf.length]? = some m1 ∧
    (buf ++ [m1, m2])[buf.length + 1]? = some m2 := by
  induction buf with
  | nil => exact ⟨rfl, rfl⟩
  | cons a t ih => simpa using ih

/-- C8: FIFO preserves arrival order.  Enqueueing `m1` then `m2` on any
buffer (insertion is `push_back` via the manipulator) and then draining in
FIFO mode (read and remove `front()`) yields the buffer in order followed
by `m1` then `m2`: `m1` is dequeued at position `buf.length`, strictly
before `m2` at position `buf.length + 1`.  (src/messageQueue.hpp lines
420-435, src/unnamed/part_001 lines 79-90.) -/
theorem fifo_preserves_arrival_order {M : Type} (buf : List M) (m1 m2 : M) :
    drain Mode.FIFO (buf.length + 2) (manipPush m2 (manipPush m1 buf)) =
      buf ++ [m1, m2] ∧
    (buf ++ [m1, m2])[buf.length]? = some m1 ∧
    (buf ++ [m1, m2])[buf.length + 1]? = some m2 := by
  refine ⟨?_, getElem?_append_pair buf m1 m2⟩
  have hpush : manipPush m2 (manipPush m1 buf) = buf ++ [m1, m2] := by
    unfold manipPush
    simp
  rw [hpush]
  exact drain_fifo_eq (buf.length + 2) (buf ++ [m1, m2]) (by simp)

/-- C6 amended, positive half: in `Receiver::get_message_blocking` the
timeout test is guarded by `timeout > 0`, so with `timeout ≤ 0` the poll
loop never throws `WaitTimeoutException` — on an always-empty queue it is
still polling after any number of iterations, whatever elapsed times the
clock reports.  (src/messageQueue.hpp lines 393-417.)  The old
`Listener::get_message_blocking` lacks this guard: see the
counterexample. -/
theorem receiver_blocking_no_timeout {M : Type} (r : Receiver M)
    (consumed : M → Bool) (bufAt : Nat → List M) (elapsedAt : Nat → ℚ)
    (ht : r.timeout ≤ 0) (hempty : ∀ k, bufAt k = []) (fuel k : Nat) :
    r.blockingLoop consumed bufAt elapsedAt fuel k = none := by
  induction fuel generalizing k with
  | zero => rfl
  | succ n ih =>
    have hstep : r.blockingStep consumed (bufAt k) (elapsedAt k) =
        PollStep.retry := by
      unfold Receiver.blockingStep
      rw [hempty k]
      have hcond : ¬ (r.timeout > 0 ∧ (r.timeout : ℚ) ≤ elapsedAt k) := by
        rintro ⟨h1, _⟩
        omega
      simp [hcond]
    unfold Receiver.blockingLoop
    rw [hstep]
    exact ih (k + 1)

/-- Witness for C6's amended statement: a blocking receiver with
`timeout = 0` on an always-empty queue is still polling after 5
iterations. -/
theorem receiver_blocking_no_timeout_witness :
    (⟨Mode.FIFO, true, false, 0, 1, EmptyQueuePolicy.DO_NOTHING⟩ :
        Receiver ℕ).blockingLoop (fun _ => true) (fun _ => [])
      (fun k => (k : ℚ)) 5 0 = none :=
  receiver_blocking_no_timeout
    (⟨Mode.FIFO, true, false, 0, 1, EmptyQueuePolicy.DO_NOTHING⟩ :
      Receiver ℕ)
    (fun _ => true) (fun _ => []) (fun k => (k : ℚ)) (by decide)
    (fun _ => rfl) 5 0

/-- C6 counterexample: the older `mq::Listener::get_message_blocking`
(src/unnamed/part_001 lines 347-371) checks `elapsed >= timeout` with no
`timeout > 0` guard, so a blocking listen configured with `timeout = 0`
(which is `≤ 0`) throws `WaitTimeoutException` on its very first failed
poll of an empty queue, instead of waiting indefinitely. -/
theorem listener_timeout_zero_throws_immediately :
    listenerBlockingLoop (M := ℕ) Mode.FIFO 0 (fun _ => false)
      (fun _ => []) (fun _ => 0) 1 0 =
      some (Except.error MqError.WaitTimeoutException) ∧
    (0 : Int) ≤ 0 := by
  exact ⟨rfl, by decide⟩

end Claims4
